import Mathlib

/-!
# URL shortener: a shallow embedding of `main.go`

The development models the two request handlers of the service
(`createShortURLHandler` and `redirectHandler`), the code generator
`generateCode`, and the two external services they talk to: the `urls`
table of the SQL store and the Redis cache.

Modelling conventions

* The SQL table is a list of rows in insertion order; a query by `code`
  returns the first row whose code is the same string (codes are compared
  character by character).
* The cache is a list of entries carrying an absolute expiry instant.
* Every call to an external service can fail.  Whether it does is an input
  of the handler (the environment records), not something the handler decides.
* `math/rand` is a stream of raw draws `rng : Nat → Nat` together with a count
  of the draws already consumed.
* Handlers return the HTTP response, the next world and the ordered list of
  externally visible effects they issued.
* The unbounded allocation loop of `createShortURLHandler` is driven by fuel;
  `none` means that the fuel ran out before the loop was left.
* A redirect response records the call `http.Redirect(w, r, url, status)` with
  the argument `url` the handler passes.  The `Location` header the client
  receives is what `net/http` makes of that argument; it is computed by
  `locationHeader`, in which `url.Parse` is a parameter.
-/

namespace UrlShortener

/-! ## Configuration (main.go, lines 22-32) -/

/-- Length of a short code: `codeLength = 6`. -/
def codeLength : Nat := 6

/-- One hour as a Go `time.Duration`, that is, in nanoseconds. -/
def Hour : Nat := 3600 * 1000000000

/-- Cache expiry time: `cacheExpiry = 24 * time.Hour`. -/
def cacheExpiry : Nat := 24 * Hour

/-! ## Code generator (main.go, lines 105-113) -/

/-- The constant `charset` of `generateCode`. -/
def charset : String := "abcdefghijklmnopqrstuvwxyzABCDEFGHIJKLMNOPQRSTUVWXYZ0123456789"

/-- The 26 lowercase letters. -/
def lowercase : List Char := "abcdefghijklmnopqrstuvwxyz".data

/-- The 26 uppercase letters. -/
def uppercase : List Char := "ABCDEFGHIJKLMNOPQRSTUVWXYZ".data

/-- The 10 digits. -/
def digits : List Char := "0123456789".data

/-- Model of `rand.Intn(n)`: it panics (`none`) for `n = 0`, and otherwise returns
a number of the half-open interval `[0, n)`, here the raw draw reduced modulo `n`.
Every value of the interval is produced by some raw draw. -/
def Intn (raw n : Nat) : Option Nat :=
  if n = 0 then none else some (raw % n)

/-- Indexing `charset[i]`: Go panics when the index is out of range (`none`). -/
def charsetAt (i : Nat) : Option Char :=
  charset.data[i]?

/-- The loop `for i := range code` of `generateCode`, filling `n` remaining
positions; the draw at stream position `pos` is the next one. -/
def fillCode (rng : Nat → Nat) : Nat → Nat → Option (List Char)
  | 0, _ => some []
  | n + 1, pos =>
    match Intn (rng pos) charset.length with
    | none => none
    | some idx =>
      match charsetAt idx with
      | none => none
      | some c =>
        match fillCode rng n (pos + 1) with
        | none => none
        | some rest => some (c :: rest)

/-- Function `generateCode()`, run when `pos` draws of the random stream have
already been consumed.  `none` stands for a run-time panic. -/
def generateCode (rng : Nat → Nat) (pos : Nat) : Option String :=
  (fillCode rng codeLength pos).map String.mk

/-! ## Data model (main.go, lines 34-42 and 76-84) -/

/-- A row of table `urls`: the columns `code`, `long_url` and `hits`.  The columns
`id` and `created_at` are filled by the store and read by no handler. -/
structure URLRecord where
  code : String
  long_url : String
  hits : Nat
  deriving DecidableEq, Repr

/-- A key of the Redis cache with its value and the instant at which it expires. -/
structure CacheEntry where
  key : String
  value : String
  expiresAt : Nat
  deriving DecidableEq, Repr

/-- Go struct `URLData`, the JSON object of requests and responses. -/
structure URLData where
  LongURL : String
  ShortURL : String
  Code : String
  deriving DecidableEq, Repr

/-- An HTTP response as the handlers produce it. -/
inductive Response where
  /-- Status and `URLData` body written at the end of `createShortURLHandler`. -/
  | created (status : Nat) (body : URLData)
  /-- Call `respondWithError(w, code, message)`: status and `ErrorResponse` body. -/
  | error (status : Nat) (message : String)
  /-- Call `http.NotFound(w, r)`. -/
  | notFound
  /-- Call `http.Redirect(w, r, url, status)`: `url` is the argument of the call, not
  the `Location` header sent, which is `locationHeader` of it. -/
  | redirect (status : Nat) (url : String)
  /-- The handler panicked before writing a response. -/
  | crashed
  deriving DecidableEq, Repr

/-- HTTP status code of a response (`http.NotFound` answers 404; a handler that
panics has its connection closed by the server, written 0 here). -/
def Response.status : Response → Nat
  | .created s _ => s
  | .error s _ => s
  | .notFound => 404
  | .redirect s _ => s
  | .crashed => 0

/-- The externally visible actions of a handler, in the order they are issued. -/
inductive Effect where
  /-- One call of `generateCode()`. -/
  | generate
  /-- Query `SELECT 1 FROM urls WHERE code = ?`. -/
  | dbExists (code : String)
  /-- Statement `INSERT INTO urls (code, long_url) VALUES (?, ?)`. -/
  | dbInsert (code long_url : String)
  /-- Query `SELECT long_url FROM urls WHERE code = ?`. -/
  | dbSelect (code : String)
  /-- Command `redisClient.Get(ctx, key)`. -/
  | cacheGet (key : String)
  /-- Command `redisClient.Set(ctx, key, value, ttl)`. -/
  | cacheSet (key value : String) (ttl : Nat)
  /-- Statement `go func() { UPDATE urls SET hits = hits + 1 WHERE code = ? }()`. -/
  | spawnHit (code : String)
  /-- A line written with `log.Printf`. -/
  | log (msg : String)
  deriving DecidableEq, Repr

/-- The state the handlers share: the `urls` table, the cache and the number of
draws already taken from the global random source. -/
structure World where
  urls : List URLRecord
  cache : List CacheEntry
  draws : Nat
  deriving DecidableEq, Repr

/-- What a handler call yields. -/
structure Outcome where
  resp : Response
  world : World
  effects : List Effect
  deriving DecidableEq, Repr

/-! ## The SQL store -/

/-- Result of `db.QueryRow(...).Scan(...)`: a row, `sql.ErrNoRows`, or another error. -/
inductive SqlResult where
  | row (r : URLRecord)
  | errNoRows
  | failed
  deriving DecidableEq, Repr

/-- First row of the table whose `code` is the one asked for. -/
def findRow (urls : List URLRecord) (code : String) : Option URLRecord :=
  urls.find? (fun r => r.code == code)

/-- The `long_url` the store holds for `code`, if any. -/
def storeLookup (urls : List URLRecord) (code : String) : Option String :=
  (findRow urls code).map (fun r => r.long_url)

/-- A query `SELECT ... FROM urls WHERE code = ?` read with `QueryRow`; `fail`
says that the store call itself fails. -/
def queryRow (fail : Bool) (urls : List URLRecord) (code : String) : SqlResult :=
  if fail then .failed
  else
    match findRow urls code with
    | some r => .row r
    | none => .errNoRows

/-- Statement `INSERT INTO urls (code, long_url) VALUES (?, ?)`.  It fails when the
store call fails and when the `UNIQUE` constraint on `code` is violated; the new
row has `hits = 0` (column default). -/
def execInsert (fail : Bool) (urls : List URLRecord) (code long_url : String) :
    Option (List URLRecord) :=
  if fail then none
  else
    match findRow urls code with
    | some _ => none
    | none => some (urls ++ [⟨code, long_url, 0⟩])

/-- Statement `UPDATE urls SET hits = hits + 1 WHERE code = ?` on the table. -/
def bumpHits (urls : List URLRecord) (code : String) : List URLRecord :=
  urls.map (fun r => if r.code == code then { r with hits := r.hits + 1 } else r)

/-! ## The Redis cache -/

/-- Result of `redisClient.Get(ctx, key).Result()`: a value, `redis.Nil`, or
another error. -/
inductive CacheResult where
  | hit (value : String)
  | miss
  | failed
  deriving DecidableEq, Repr

/-- The entry stored under `key`, expired or not. -/
def findEntry (cache : List CacheEntry) (key : String) : Option CacheEntry :=
  cache.find? (fun e => e.key == key)

/-- Command `GET key` at instant `now`: an entry that has reached its expiry
instant is absent. -/
def redisGet (fail : Bool) (cache : List CacheEntry) (key : String) (now : Nat) : CacheResult :=
  if fail then .failed
  else
    match findEntry cache key with
    | some e => if now < e.expiresAt then .hit e.value else .miss
    | none => .miss

/-- Command `SET key value` with expiry `ttl` at instant `now`: it replaces what
was stored under `key`.  A failed command leaves the cache as it was. -/
def redisSet (fail : Bool) (cache : List CacheEntry) (key value : String) (ttl now : Nat) :
    List CacheEntry :=
  if fail then cache
  else ⟨key, value, now + ttl⟩ :: cache.filter (fun e => e.key != key)

/-- Redis dropping the entries that have expired at instant `now`. -/
def expireEntries (cache : List CacheEntry) (now : Nat) : List CacheEntry :=
  cache.filter (fun e => decide (now < e.expiresAt))

/-! ## Handler `createShortURLHandler` (main.go, lines 115-184) -/

/-- Request as `createShortURLHandler` sees it: the method and the result of
`json.NewDecoder(r.Body).Decode(&urlData)`, `none` when decoding returns an error. -/
structure ShortenRequest where
  method : String
  body : Option URLData

/-- Failures of the external calls made by one run of `createShortURLHandler`:
`existsFail i` for the existence query of loop iteration `i` (from 0), then the
insert, then the cache write. -/
structure ShortenEnv where
  existsFail : Nat → Bool
  insertFail : Bool
  cacheSetFail : Bool

/-- How the loop `for { ... }` of lines 138-156 is left. -/
inductive Alloc where
  /-- Left by `break`: the candidate has no row. -/
  | free (code : String) (draws : Nat) (effects : List Effect)
  /-- Left by `return` after a store error. -/
  | dbError (draws : Nat) (effects : List Effect)
  /-- The call `generateCode()` panicked. -/
  | crashed (draws : Nat) (effects : List Effect)
  deriving DecidableEq, Repr

/-- The loop of lines 138-156.  `iter` counts the iterations done, `draws` the
random draws consumed, `eff` the effects issued so far.  Each iteration uses
one unit of fuel; `none` means the fuel ran out inside the loop. -/
def findFreeCode (rng : Nat → Nat) (existsFail : Nat → Bool) (urls : List URLRecord) :
    Nat → Nat → Nat → List Effect → Option Alloc
  | 0, _, _, _ => none
  | fuel + 1, iter, draws, eff =>
    match generateCode rng draws with
    | none => some (.crashed draws (eff ++ [.generate]))
    | some code =>
      match queryRow (existsFail iter) urls code with
      | .errNoRows =>
        some (.free code (draws + codeLength) (eff ++ [.generate, .dbExists code]))
      | .failed =>
        some (.dbError (draws + codeLength)
          (eff ++ [.generate, .dbExists code, .log "Database error"]))
      | .row _ =>
        findFreeCode rng existsFail urls fuel (iter + 1) (draws + codeLength)
          (eff ++ [.generate, .dbExists code])

/-- Function `createShortURLHandler`.  `shortURLBase` is the environment setting
of that name and `now` the instant of the call. -/
def createShortURLHandler (shortURLBase : String) (rng : Nat → Nat) (env : ShortenEnv)
    (now fuel : Nat) (r : ShortenRequest) (w : World) : Option Outcome :=
  if r.method ≠ "POST" then
    some ⟨.error 405 "Method not allowed", w, []⟩
  else
    match r.body with
    | none => some ⟨.error 400 "Invalid request body", w, []⟩
    | some urlData =>
      if urlData.LongURL = "" then
        some ⟨.error 400 "URL is required", w, []⟩
      else
        match findFreeCode rng env.existsFail w.urls fuel 0 w.draws [] with
        | none => none
        | some (.crashed draws eff) => some ⟨.crashed, { w with draws := draws }, eff⟩
        | some (.dbError draws eff) =>
          some ⟨.error 500 "Error generating short URL", { w with draws := draws }, eff⟩
        | some (.free code draws eff) =>
          match execInsert env.insertFail w.urls code urlData.LongURL with
          | none =>
            some ⟨.error 500 "Database error", { w with draws := draws },
              eff ++ [.dbInsert code urlData.LongURL, .log "Failed to insert URL"]⟩
          | some urls =>
            some ⟨.created 201 ⟨urlData.LongURL, shortURLBase ++ "/" ++ code, code⟩,
              ⟨urls, redisSet env.cacheSetFail w.cache code urlData.LongURL cacheExpiry now, draws⟩,
              eff ++ [.dbInsert code urlData.LongURL, .cacheSet code urlData.LongURL cacheExpiry]
                ++ (if env.cacheSetFail then [.log "Cache error"] else [])⟩

/-! ## Handler `redirectHandler` (main.go, lines 186-249) -/

/-- Failures of the external calls made by one run of `redirectHandler`. -/
structure ResolveEnv where
  cacheGetFail : Bool
  selectFail : Bool
  cacheSetFail : Bool
  deriving DecidableEq, Repr

/-- Function `redirectHandler` for the path variable `code` at instant `now`. -/
def redirectHandler (env : ResolveEnv) (now : Nat) (code : String) (w : World) : Outcome :=
  match redisGet env.cacheGetFail w.cache code now with
  | .miss =>
    match queryRow env.selectFail w.urls code with
    | .errNoRows => ⟨.notFound, w, [.cacheGet code, .dbSelect code]⟩
    | .failed =>
      ⟨.error 500 "Error retrieving URL", w,
        [.cacheGet code, .dbSelect code, .log "Database error"]⟩
    | .row r =>
      ⟨.redirect 307 r.long_url,
        { w with cache := redisSet env.cacheSetFail w.cache code r.long_url cacheExpiry now },
        [.cacheGet code, .dbSelect code, .cacheSet code r.long_url cacheExpiry, .spawnHit code]⟩
  | .failed =>
    match queryRow env.selectFail w.urls code with
    | .errNoRows => ⟨.notFound, w, [.cacheGet code, .log "Cache error", .dbSelect code]⟩
    | .failed =>
      ⟨.error 500 "Error retrieving URL", w,
        [.cacheGet code, .log "Cache error", .dbSelect code, .log "Database error"]⟩
    | .row r =>
      ⟨.redirect 307 r.long_url, w,
        [.cacheGet code, .log "Cache error", .dbSelect code, .spawnHit code]⟩
  | .hit longURL =>
    ⟨.redirect 307 longURL, w, [.cacheGet code, .spawnHit code]⟩

/-- Body of the goroutine started by `redirectHandler`: the hit counter update,
whose failure is only logged. -/
def hitTask (fail : Bool) (code : String) (w : World) : World × List Effect :=
  if fail then (w, [.log "Failed to update hit counter"])
  else ({ w with urls := bumpHits w.urls code }, [])

/-- The codes for which an effect list starts a hit-counter goroutine. -/
def spawnedHits : List Effect → List String
  | [] => []
  | .spawnHit code :: rest => code :: spawnedHits rest
  | _ :: rest => spawnedHits rest

/-- Runs the goroutines for the listed codes one after the other, each failing
or not as `fail` says. -/
def runHits (fail : Bool) : List String → World → World
  | [], w => w
  | code :: rest, w => runHits fail rest (hitTask fail code w).1

/-- A resolve followed by the completion of the goroutines it started. -/
def resolveAndCount (env : ResolveEnv) (hitFail : Bool) (now : Nat) (code : String)
    (w : World) : Outcome :=
  let o := redirectHandler env now code w
  { o with world := runHits hitFail (spawnedHits o.effects) o.world }

/-! ## The `Location` header written by `http.Redirect` (package `net/http`) -/

/-- What `url.Parse` reports about a URL, as far as `http.Redirect` reads it: the
fields `Scheme` and `Host` of the parsed URL. -/
structure URLParts where
  Scheme : String
  Host : String
  deriving DecidableEq, Repr

/-- First result of `path.Split`: the path up to and including its last slash,
empty when the path has no slash. -/
def pathSplitDir (p : List Char) : List Char :=
  (p.reverse.dropWhile (fun c => c != '/')).reverse

/-- The elements of a path, that is, the runs of characters between slashes;
`cur` holds the element being read, last character first. -/
def splitSlash : List Char → List Char → List (List Char)
  | [], cur => [cur.reverse]
  | c :: rest, cur =>
    if c = '/' then cur.reverse :: splitSlash rest [] else splitSlash rest (c :: cur)

/-- One element read by the loop of `path.Clean`.  The state is the list of
elements written so far and the number of leading `..` elements that can no
longer be removed: an empty element and `.` are skipped, `..` removes the last
removable element or, in a path that is not rooted, is written and kept, and
any other element is written. -/
def cleanStep (rooted : Bool) (st : List (List Char) × Nat) (el : List Char) :
    List (List Char) × Nat :=
  if el = [] ∨ el = ['.'] then st
  else if el = ['.', '.'] then
    if st.2 < st.1.length then (st.1.dropLast, st.2)
    else if rooted then st
    else (st.1 ++ [el], st.1.length + 1)
  else (st.1 ++ [el], st.2)

/-- Function `path.Clean`: the shortest equivalent path; the empty result is
written `.`. -/
def pathClean (p : List Char) : List Char :=
  let rooted := p.head? == some '/'
  let out := ((splitSlash p []).foldl (cleanStep rooted) ([], 0)).1
  if rooted then '/' :: List.intercalate ['/'] out
  else if out = [] then ['.'] else List.intercalate ['/'] out

/-- A hexadecimal digit in lower case, as `strconv.AppendInt(b, n, 16)` writes it. -/
def hexDigit (n : Nat) : Char :=
  "0123456789abcdef".data.getD n '0'

/-- Escape of one byte of value 128 or more: a percent sign and its two
hexadecimal digits. -/
def escapeByte (b : UInt8) : List Char :=
  ['%', hexDigit (b.toNat / 16), hexDigit (b.toNat % 16)]

/-- Function `hexEscapeNonASCII` of `net/http`: every byte of the UTF-8 string that
is 128 or more is replaced by its escape, the other bytes are kept. -/
def hexEscapeNonASCII (s : List Char) : List Char :=
  s.flatMap (fun c =>
    if c.toNat < 128 then [c] else (String.utf8EncodeChar c).flatMap escapeByte)

/-- The `Location` header set by `http.Redirect(w, r, url, code)` for a request of
path `oldpath`.  When `url.Parse` returns no error and finds neither a scheme nor
a host, the URL is made absolute against the directory of the request path and
its path part, up to the first question mark, is cleaned with the trailing
slash preserved; in every case bytes outside ASCII are escaped.  `parse` is
`url.Parse`, with `none` for a parse error. -/
def locationHeader (parse : String → Option URLParts) (oldpath url : String) : String :=
  String.mk (hexEscapeNonASCII (
    match parse url with
    | none => url.data
    | some u =>
      if u.Scheme = "" ∧ u.Host = "" then
        let oldpath := if oldpath = "" then "/" else oldpath
        let url1 :=
          if url.data.head? = some '/' then url.data
          else pathSplitDir oldpath.data ++ url.data
        let path := url1.takeWhile (fun c => c != '?')
        let query := url1.dropWhile (fun c => c != '?')
        let cleaned := pathClean path
        let cleaned :=
          if path.getLast? = some '/' ∧ cleaned.getLast? ≠ some '/' then cleaned ++ ['/']
          else cleaned
        cleaned ++ query
      else url.data))

/-- Path of the request that the route `/{code}` hands to `redirectHandler` with
path variable `code`. -/
def requestPath (code : String) : String :=
  "/" ++ code

/-- The `Location` header of a response of `redirectHandler` to the request for
`code`; `none` when the response is not a redirect. -/
def responseLocation (parse : String → Option URLParts) (code : String) :
    Response → Option String
  | .redirect _ url => some (locationHeader parse (requestPath code) url)
  | _ => none

/-! ## Derived notions used in the statements -/

/-- The cache writes among the effects. -/
def cacheWrites : List Effect → List Effect
  | [] => []
  | .cacheSet k v t :: rest => .cacheSet k v t :: cacheWrites rest
  | _ :: rest => cacheWrites rest

/-- The store writes (inserts) among the effects. -/
def storeWrites : List Effect → List Effect
  | [] => []
  | .dbInsert c u :: rest => .dbInsert c u :: storeWrites rest
  | _ :: rest => storeWrites rest

/-- Number of calls of the code generator among the effects. -/
def generatorCalls : List Effect → Nat
  | [] => 0
  | .generate :: rest => generatorCalls rest + 1
  | _ :: rest => generatorCalls rest

/-- Every cache entry, expired or not, carries the value the store holds for
its key. -/
def CacheAgrees (w : World) : Prop :=
  ∀ e ∈ w.cache, storeLookup w.urls e.key = some e.value

/-- The codes of the rows are pairwise distinct. -/
def UniqueCodes (urls : List URLRecord) : Prop :=
  (urls.map (fun r => r.code)).Nodup

/-- The part of a row that is fixed once written: its code and long URL. -/
def URLRecord.identity (r : URLRecord) : String × String :=
  (r.code, r.long_url)

/-- States reached from the empty store and the empty cache by shorten calls,
resolve calls, completions of hit-counter goroutines and cache expiry. -/
inductive Reachable (shortURLBase : String) (rng : Nat → Nat) : World → Prop where
  | init (draws : Nat) : Reachable shortURLBase rng ⟨[], [], draws⟩
  | shorten {w : World} {o : Outcome} (env : ShortenEnv) (now fuel : Nat) (r : ShortenRequest) :
      Reachable shortURLBase rng w →
      createShortURLHandler shortURLBase rng env now fuel r w = some o →
      Reachable shortURLBase rng o.world
  | resolve {w : World} (env : ResolveEnv) (now : Nat) (code : String) :
      Reachable shortURLBase rng w →
      Reachable shortURLBase rng (redirectHandler env now code w).world
  | hit {w : World} (fail : Bool) (code : String) :
      Reachable shortURLBase rng w →
      Reachable shortURLBase rng (hitTask fail code w).1
  | expire {w : World} (now : Nat) :
      Reachable shortURLBase rng w →
      Reachable shortURLBase rng { w with cache := expireEntries w.cache now }

/-- No entry is stored under the code (cold cache). -/
def CacheAbsent (cache : List CacheEntry) (code : String) : Prop :=
  findEntry cache code = none

/-- The entry stored under the code is live at `now` and carries `url` (warm cache). -/
def CacheWarm (cache : List CacheEntry) (code url : String) (now : Nat) : Prop :=
  ∃ e, findEntry cache code = some e ∧ e.value = url ∧ now < e.expiresAt

/-- The entry stored under the code has expired at `now`. -/
def CacheExpired (cache : List CacheEntry) (code : String) (now : Nat) : Prop :=
  ∃ e, findEntry cache code = some e ∧ e.expiresAt ≤ now

/-- Responses of successive resolve calls of one code, each with its own
failures and instant, every call starting from the world the previous one left. -/
def resolveSeq : List (ResolveEnv × Nat) → String → World → List Response
  | [], _, _ => []
  | (env, now) :: rest, code, w =>
    (redirectHandler env now code w).resp ::
      resolveSeq rest code (redirectHandler env now code w).world

/-! ## Decision procedures for the derived notions -/

instance (w : World) : Decidable (CacheAgrees w) := by
  unfold CacheAgrees
  infer_instance

instance (urls : List URLRecord) : Decidable (UniqueCodes urls) := by
  unfold UniqueCodes
  infer_instance

instance (cache : List CacheEntry) (code : String) : Decidable (CacheAbsent cache code) := by
  unfold CacheAbsent
  infer_instance

instance (cache : List CacheEntry) (code url : String) (now : Nat) :
    Decidable (CacheWarm cache code url now) :=
  match h : findEntry cache code with
  | none => isFalse (fun ⟨e, he, _⟩ => by rw [h] at he; cases he)
  | some e =>
    decidable_of_iff (e.value = url ∧ now < e.expiresAt)
      ⟨fun hp => ⟨e, h, hp.1, hp.2⟩,
       fun ⟨e2, he, hp⟩ => by rw [h] at he; cases he; exact hp⟩

instance (cache : List CacheEntry) (code : String) (now : Nat) :
    Decidable (CacheExpired cache code now) :=
  match h : findEntry cache code with
  | none => isFalse (fun ⟨e, he, _⟩ => by rw [h] at he; cases he)
  | some e =>
    decidable_of_iff (e.expiresAt ≤ now)
      ⟨fun hp => ⟨e, h, hp⟩,
       fun ⟨e2, he, hp⟩ => by rw [h] at he; cases he; exact hp⟩

/-! ## Sample inputs -/

/-- A base URL for the samples. -/
def sampleBase : String := "https://sho.rt"

/-- The long URL of the samples. -/
def sampleURL : String := "https://example.com/page"

/-- A random stream whose first six draws are 0 and whose later draws are 1: the
first generated code is `aaaaaa`, the following ones are `bbbbbb`. -/
def sampleRng : Nat → Nat := fun i => if i < 6 then 0 else 1

/-- No call of the shorten handler fails. -/
def shortenOk : ShortenEnv := ⟨fun _ => false, false, false⟩

/-- No call of the resolve handler fails. -/
def resolveOk : ResolveEnv := ⟨false, false, false⟩

/-- The cache read of the resolve handler fails, the store works. -/
def resolveCacheDown : ResolveEnv := ⟨true, false, true⟩

/-- The empty store and cache. -/
def emptyWorld : World := ⟨[], [], 0⟩

/-- A store with one row, `aaaaaa`, and an empty cache. -/
def oneRowWorld : World := ⟨[⟨"aaaaaa", "https://example.com/old", 3⟩], [], 0⟩

/-- A long URL without scheme: a non-empty string, accepted by the shorten handler. -/
def relativeURL : String := "example.com/page"

/-- A long URL with a character outside ASCII. -/
def accentURL : String := "https://example.com/café"

/-- The world left by the first shorten call, of `url`, at instant 0 under
`sampleRng`, when nothing fails: one row and one cache entry for `aaaaaa`. -/
def afterShorten (url : String) : World :=
  ⟨[⟨"aaaaaa", url, 0⟩], [⟨"aaaaaa", url, 0 + cacheExpiry⟩], 6⟩

/-- What `url.Parse` reports for the two sample URLs: no scheme and no host in
`relativeURL`, scheme `https` and host `example.com` otherwise. -/
def sampleParse : String → Option URLParts :=
  fun s => if s = relativeURL then some ⟨"", ""⟩ else some ⟨"https", "example.com"⟩

/-! ## Lemmas on the code generator -/

theorem charset_length : charset.length = 62 := by decide

theorem charsetAt_lt (i : Nat) (h : i < 62) : ∃ c, charsetAt i = some c ∧ c ∈ charset.data := by
  have h62 : charset.data.length = 62 := by decide
  have hl : i < charset.data.length := by omega
  refine ⟨charset.data[i], ?_, List.getElem_mem hl⟩
  simp [charsetAt, List.getElem?_eq_getElem hl]

theorem fillCode_some (rng : Nat → Nat) (n pos : Nat) :
    ∃ cs, fillCode rng n pos = some cs ∧ cs.length = n ∧ ∀ c ∈ cs, c ∈ charset.data := by
  induction n generalizing pos with
  | zero => exact ⟨[], rfl, rfl, by simp⟩
  | succ n ih =>
    obtain ⟨rest, hrest, hlen, hmem⟩ := ih (pos + 1)
    have hlt : rng pos % 62 < 62 := Nat.mod_lt _ (by decide)
    obtain ⟨c, hc, hcm⟩ := charsetAt_lt (rng pos % 62) hlt
    refine ⟨c :: rest, ?_, by simp [hlen], ?_⟩
    · simp [fillCode, Intn, charset_length, hc, hrest]
    · intro x hx
      rcases List.mem_cons.mp hx with h | h
      · exact h ▸ hcm
      · exact hmem x h

theorem generateCode_some (rng : Nat → Nat) (pos : Nat) :
    ∃ code, generateCode rng pos = some code ∧ code.length = codeLength ∧
      ∀ c ∈ code.data, c ∈ charset.data := by
  obtain ⟨cs, hcs, hlen, hmem⟩ := fillCode_some rng codeLength pos
  exact ⟨String.mk cs, by simp [generateCode, hcs], by simpa [String.length] using hlen, hmem⟩


/-! ## Lemmas on the store -/

theorem findRow_eq_none {urls : List URLRecord} {code : String} :
    findRow urls code = none ↔ ∀ r ∈ urls, r.code ≠ code := by
  simp [findRow, List.find?_eq_none]

theorem queryRow_errNoRows {fail : Bool} {urls : List URLRecord} {code : String}
    (h : queryRow fail urls code = .errNoRows) : fail = false ∧ findRow urls code = none := by
  unfold queryRow at h
  cases fail with
  | true => simp at h
  | false =>
    cases hf : findRow urls code with
    | none => exact ⟨rfl, rfl⟩
    | some r => simp [hf] at h

theorem queryRow_row {fail : Bool} {urls : List URLRecord} {code : String} {r : URLRecord}
    (h : queryRow fail urls code = .row r) : fail = false ∧ findRow urls code = some r := by
  unfold queryRow at h
  cases fail with
  | true => simp at h
  | false =>
    cases hf : findRow urls code with
    | none => simp [hf] at h
    | some r2 =>
      simp [hf] at h
      exact ⟨rfl, by rw [h]⟩

theorem queryRow_working (urls : List URLRecord) (code : String) :
    queryRow false urls code =
      match findRow urls code with
      | some r => .row r
      | none => .errNoRows := by
  simp [queryRow]

theorem storeLookup_eq_some {urls : List URLRecord} {code url : String}
    (h : storeLookup urls code = some url) :
    ∃ r, findRow urls code = some r ∧ r.long_url = url := by
  unfold storeLookup at h
  cases hf : findRow urls code with
  | none => simp [hf] at h
  | some r => exact ⟨r, rfl, by simpa [hf] using h⟩

theorem storeLookup_append_of_some {urls : List URLRecord} {code url : String} (rec : URLRecord)
    (h : storeLookup urls code = some url) : storeLookup (urls ++ [rec]) code = some url := by
  obtain ⟨r, hr, hu⟩ := storeLookup_eq_some h
  unfold findRow at hr
  simp [storeLookup, findRow, List.find?_append, hr, hu]

theorem storeLookup_append_new {urls : List URLRecord} {code : String} (url : String) (hits : Nat)
    (h : findRow urls code = none) :
    storeLookup (urls ++ [⟨code, url, hits⟩]) code = some url := by
  unfold findRow at h
  simp [storeLookup, findRow, List.find?_append, h]

theorem findRow_bumpHits (urls : List URLRecord) (c code : String) :
    (findRow (bumpHits urls c) code).map URLRecord.identity =
      (findRow urls code).map URLRecord.identity := by
  induction urls with
  | nil => rfl
  | cons r rest ih =>
    unfold findRow bumpHits at *
    by_cases hc : r.code == c <;> by_cases hk : r.code == code <;>
      simp_all [List.find?_cons, URLRecord.identity]

theorem storeLookup_bumpHits (urls : List URLRecord) (c code : String) :
    storeLookup (bumpHits urls c) code = storeLookup urls code := by
  have h := findRow_bumpHits urls c code
  unfold storeLookup
  cases h1 : findRow (bumpHits urls c) code <;> cases h2 : findRow urls code <;>
    simp_all [URLRecord.identity]

theorem bumpHits_identity (urls : List URLRecord) (c : String) :
    (bumpHits urls c).map URLRecord.identity = urls.map URLRecord.identity := by
  unfold bumpHits
  rw [List.map_map]
  apply List.map_congr_left
  intro r _
  by_cases hc : r.code = c <;> simp [hc, URLRecord.identity]

theorem bumpHits_codes (urls : List URLRecord) (c : String) :
    (bumpHits urls c).map (fun r => r.code) = urls.map (fun r => r.code) := by
  unfold bumpHits
  rw [List.map_map]
  apply List.map_congr_left
  intro r _
  by_cases hc : r.code = c <;> simp [hc]

theorem execInsert_some {fail : Bool} {urls urls2 : List URLRecord} {code url : String}
    (h : execInsert fail urls code url = some urls2) :
    findRow urls code = none ∧ urls2 = urls ++ [⟨code, url, 0⟩] := by
  unfold execInsert at h
  cases fail with
  | true => simp at h
  | false =>
    cases hf : findRow urls code with
    | some r => simp [hf] at h
    | none =>
      simp [hf] at h
      exact ⟨rfl, h.symm⟩

theorem execInsert_working {urls : List URLRecord} {code : String} (url : String)
    (h : findRow urls code = none) :
    execInsert false urls code url = some (urls ++ [⟨code, url, 0⟩]) := by
  simp [execInsert, h]

theorem uniqueCodes_append {urls : List URLRecord} {code : String} (url : String) (hits : Nat)
    (hu : UniqueCodes urls) (h : findRow urls code = none) :
    UniqueCodes (urls ++ [⟨code, url, hits⟩]) := by
  unfold UniqueCodes at *
  rw [List.map_append, List.nodup_append]
  refine ⟨hu, by simp, ?_⟩
  intro a ha hb
  simp at hb
  subst hb
  obtain ⟨r, hr, hrc⟩ := List.mem_map.mp ha
  exact (findRow_eq_none.mp h) r hr hrc

/-! ## Lemmas on the cache -/

theorem redisGet_failing (cache : List CacheEntry) (key : String) (now : Nat) :
    redisGet true cache key now = .failed := by
  simp [redisGet]

theorem redisGet_hit {fail : Bool} {cache : List CacheEntry} {key v : String} {now : Nat}
    (h : redisGet fail cache key now = .hit v) :
    ∃ e, findEntry cache key = some e ∧ e.value = v ∧ now < e.expiresAt ∧ e ∈ cache ∧
      e.key = key := by
  unfold redisGet at h
  cases fail with
  | true => simp at h
  | false =>
    cases hf : findEntry cache key with
    | none => simp [hf] at h
    | some e =>
      simp only [hf] at h
      have hk : e.key = key := by
        have := List.find?_some (show cache.find? (fun e => e.key == key) = some e from hf)
        simpa using this
      by_cases hlt : now < e.expiresAt
      · simp [hlt] at h
        exact ⟨e, rfl, h, hlt, List.mem_of_find?_eq_some hf, hk⟩
      · simp [hlt] at h

theorem mem_redisSet {fail : Bool} {cache : List CacheEntry} {key value : String} {ttl now : Nat}
    {e : CacheEntry} (h : e ∈ redisSet fail cache key value ttl now) :
    e ∈ cache ∨ e = ⟨key, value, now + ttl⟩ := by
  unfold redisSet at h
  cases fail with
  | true => exact Or.inl (by simpa using h)
  | false =>
    simp at h
    rcases h with h | h
    · exact Or.inr h
    · exact Or.inl h.1

theorem findEntry_redisSet (cache : List CacheEntry) (key value : String) (ttl now : Nat) :
    findEntry (redisSet false cache key value ttl now) key = some ⟨key, value, now + ttl⟩ := by
  simp [findEntry, redisSet]

/-! ## Lemmas on effect lists -/

theorem generatorCalls_append (a b : List Effect) :
    generatorCalls (a ++ b) = generatorCalls a + generatorCalls b := by
  induction a with
  | nil => simp [generatorCalls]
  | cons x rest ih => cases x <;> simp [generatorCalls, ih]; omega

theorem storeWrites_append (a b : List Effect) :
    storeWrites (a ++ b) = storeWrites a ++ storeWrites b := by
  induction a with
  | nil => simp [storeWrites]
  | cons x rest ih => cases x <;> simp [storeWrites, ih]

theorem cacheWrites_append (a b : List Effect) :
    cacheWrites (a ++ b) = cacheWrites a ++ cacheWrites b := by
  induction a with
  | nil => simp [cacheWrites]
  | cons x rest ih => cases x <;> simp [cacheWrites, ih]

/-! ## Lemmas on the allocation loop -/

theorem findFreeCode_collisions (rng : Nat → Nat) (ef : Nat → Bool) (urls : List URLRecord)
    (K : Nat) :
    ∀ (fuel iter draws : Nat) (eff : List Effect) (cK : String),
      K < fuel →
      (∀ i, i < K → ∃ c, generateCode rng (draws + codeLength * i) = some c ∧
        ∃ r ∈ urls, r.code = c) →
      generateCode rng (draws + codeLength * K) = some cK →
      (∀ r ∈ urls, r.code ≠ cK) →
      (∀ i, i ≤ K → ef (iter + i) = false) →
      ∃ e, findFreeCode rng ef urls fuel iter draws eff =
          some (.free cK (draws + codeLength * (K + 1)) e) ∧
        generatorCalls e = generatorCalls eff + (K + 1) ∧
        storeWrites e = storeWrites eff ∧ cacheWrites e = cacheWrites eff := by
  induction K with
  | zero =>
    intro fuel iter draws eff cK hfuel _ hgen habs hef
    obtain ⟨f, rfl⟩ : ∃ f, fuel = f + 1 := ⟨fuel - 1, by omega⟩
    have h0 : ef iter = false := by simpa using hef 0 (Nat.le_refl 0)
    have hg : generateCode rng draws = some cK := by simpa using hgen
    refine ⟨eff ++ [.generate, .dbExists cK], ?_, ?_, ?_, ?_⟩
    · unfold findFreeCode
      simp [hg, h0, queryRow_working, findRow_eq_none.mpr habs, codeLength]
    · simp [generatorCalls_append, generatorCalls]
    · simp [storeWrites_append, storeWrites]
    · simp [cacheWrites_append, cacheWrites]
  | succ K ih =>
    intro fuel iter draws eff cK hfuel hpres hgen habs hef
    obtain ⟨f, rfl⟩ : ∃ f, fuel = f + 1 := ⟨fuel - 1, by omega⟩
    obtain ⟨c0, hc0, r0, hr0, hrc0⟩ := hpres 0 (Nat.succ_pos K)
    have hg : generateCode rng draws = some c0 := by simpa using hc0
    have h0 : ef iter = false := by simpa using hef 0 (Nat.zero_le _)
    have hrow : ∃ r, findRow urls c0 = some r := by
      cases hf : findRow urls c0 with
      | some r => exact ⟨r, rfl⟩
      | none => exact absurd hrc0 ((findRow_eq_none.mp hf) r0 hr0)
    obtain ⟨r, hr⟩ := hrow
    have hstep := ih f (iter + 1) (draws + codeLength) (eff ++ [.generate, .dbExists c0]) cK
      (by omega)
      (fun i hi => by
        have := hpres (i + 1) (by omega)
        simpa [Nat.mul_add, Nat.add_assoc, Nat.add_comm, Nat.add_left_comm] using this)
      (by simpa [Nat.mul_add, Nat.add_assoc, Nat.add_comm, Nat.add_left_comm] using hgen)
      habs
      (fun i hi => by
        have := hef (i + 1) (by omega)
        simpa [Nat.add_assoc, Nat.add_comm, Nat.add_left_comm] using this)
    obtain ⟨e, he, hgc, hsw, hcw⟩ := hstep
    refine ⟨e, ?_, ?_, ?_, ?_⟩
    · unfold findFreeCode
      simp only [hg, h0, queryRow_working, hr]
      rw [he]
      congr 2
      rw [Nat.mul_add codeLength (K + 1) 1]
      omega
    · rw [hgc]; simp [generatorCalls_append, generatorCalls]; omega
    · rw [hsw]; simp [storeWrites_append, storeWrites]
    · rw [hcw]; simp [cacheWrites_append, cacheWrites]

/-! ## Lemmas on `createShortURLHandler` -/

/-- A finished shorten call either changed neither the table nor the cache and
did not answer with a created response, or it appended one row whose code had
no row before, wrote that pair to the cache and answered 201. -/
theorem shorten_cases {base : String} {rng : Nat → Nat} {env : ShortenEnv} {now fuel : Nat}
    {r : ShortenRequest} {w : World} {o : Outcome}
    (h : createShortURLHandler base rng env now fuel r w = some o) :
    (o.world.urls = w.urls ∧ o.world.cache = w.cache ∧ ∀ s b, o.resp ≠ .created s b) ∨
    (∃ d code, r.method = "POST" ∧ r.body = some d ∧ d.LongURL ≠ "" ∧
      findRow w.urls code = none ∧
      o.world.urls = w.urls ++ [⟨code, d.LongURL, 0⟩] ∧
      o.world.cache = redisSet env.cacheSetFail w.cache code d.LongURL cacheExpiry now ∧
      o.resp = .created 201 ⟨d.LongURL, base ++ "/" ++ code, code⟩) := by
  unfold createShortURLHandler at h
  by_cases hm : r.method = "POST"
  · simp only [hm, ne_eq, not_true_eq_false, if_false] at h
    cases hb : r.body with
    | none =>
      simp only [hb, Option.some.injEq] at h
      subst h
      exact Or.inl ⟨rfl, rfl, by intro s b; simp⟩
    | some d =>
      simp only [hb] at h
      by_cases hl : d.LongURL = ""
      · simp only [hl, if_true, Option.some.injEq] at h
        subst h
        exact Or.inl ⟨rfl, rfl, by intro s b; simp⟩
      · simp only [hl, if_false] at h
        cases hloop : findFreeCode rng env.existsFail w.urls fuel 0 w.draws [] with
        | none => simp [hloop] at h
        | some a =>
          cases a with
          | crashed dr eff =>
            simp only [hloop, Option.some.injEq] at h
            subst h
            exact Or.inl ⟨rfl, rfl, by intro s b; simp⟩
          | dbError dr eff =>
            simp only [hloop, Option.some.injEq] at h
            subst h
            exact Or.inl ⟨rfl, rfl, by intro s b; simp⟩
          | free code dr eff =>
            simp only [hloop] at h
            cases hi : execInsert env.insertFail w.urls code d.LongURL with
            | none =>
              simp only [hi, Option.some.injEq] at h
              subst h
              exact Or.inl ⟨rfl, rfl, by intro s b; simp⟩
            | some urls2 =>
              simp only [hi, Option.some.injEq] at h
              subst h
              obtain ⟨habs, hu⟩ := execInsert_some hi
              exact Or.inr ⟨d, code, hm, rfl, hl, habs, hu, rfl, rfl⟩
  · simp only [hm, ne_eq, not_false_eq_true, if_true, Option.some.injEq] at h
    subst h
    exact Or.inl ⟨rfl, rfl, by intro s b; simp⟩

/-! ## Lemmas on `redirectHandler` -/

theorem redirect_urls (env : ResolveEnv) (now : Nat) (code : String) (w : World) :
    (redirectHandler env now code w).world.urls = w.urls := by
  unfold redirectHandler
  cases redisGet env.cacheGetFail w.cache code now <;>
    cases queryRow env.selectFail w.urls code <;> rfl

theorem redirect_cache (env : ResolveEnv) (now : Nat) (code : String) (w : World) :
    (redirectHandler env now code w).world.cache = w.cache ∨
    ∃ url, storeLookup w.urls code = some url ∧
      (redirectHandler env now code w).world.cache =
        redisSet env.cacheSetFail w.cache code url cacheExpiry now := by
  unfold redirectHandler
  cases hg : redisGet env.cacheGetFail w.cache code now with
  | hit v => exact Or.inl rfl
  | failed => cases queryRow env.selectFail w.urls code <;> exact Or.inl rfl
  | miss =>
    cases hq : queryRow env.selectFail w.urls code with
    | errNoRows => exact Or.inl rfl
    | failed => exact Or.inl rfl
    | row r =>
      refine Or.inr ⟨r.long_url, ?_, rfl⟩
      simp [storeLookup, (queryRow_row hq).2]

/-- With a working store, a row for the code and no live cache entry that
carries another value, resolve redirects to the stored long URL. -/
theorem redirect_of_liveAgree {env : ResolveEnv} {now : Nat} {code url : String} {w : World}
    (hstore : env.selectFail = false) (hrow : storeLookup w.urls code = some url)
    (hlive : ∀ e, findEntry w.cache code = some e → now < e.expiresAt → e.value = url) :
    (redirectHandler env now code w).resp = .redirect 307 url := by
  obtain ⟨r, hr, hu⟩ := storeLookup_eq_some hrow
  unfold redirectHandler
  cases hg : redisGet env.cacheGetFail w.cache code now with
  | hit v =>
    obtain ⟨e, he, hv, hlt, _, _⟩ := redisGet_hit hg
    simp [← hv, hlive e he hlt]
  | failed => simp [hstore, queryRow_working, hr, hu]
  | miss => simp [hstore, queryRow_working, hr, hu]

/-- Resolving a code that has no row, from a state whose cache agrees with the store. -/
theorem redirect_unknown (env : ResolveEnv) (now : Nat) {code : String} {w : World}
    (hagree : CacheAgrees w) (hno : ∀ r ∈ w.urls, r.code ≠ code) :
    (redirectHandler env now code w).resp =
      if env.selectFail then .error 500 "Error retrieving URL" else .notFound := by
  have hnone : findRow w.urls code = none := findRow_eq_none.mpr hno
  unfold redirectHandler
  cases hg : redisGet env.cacheGetFail w.cache code now with
  | hit v =>
    obtain ⟨e, _, _, _, hmem, hk⟩ := redisGet_hit hg
    have := hagree e hmem
    rw [hk] at this
    simp [storeLookup, hnone] at this
  | failed => cases hs : env.selectFail <;> simp [queryRow, hnone]
  | miss => cases hs : env.selectFail <;> simp [queryRow, hnone]

/-! ## The cache agrees with the store in every reachable state -/

theorem cacheAgrees_redisSet {w : World} {fail : Bool} {code url : String} {ttl now : Nat}
    {urls : List URLRecord} (hagree : ∀ e ∈ w.cache, storeLookup urls e.key = some e.value)
    (hnew : storeLookup urls code = some url) :
    ∀ e ∈ redisSet fail w.cache code url ttl now, storeLookup urls e.key = some e.value := by
  intro e he
  rcases mem_redisSet he with h | h
  · exact hagree e h
  · subst h; exact hnew

theorem cacheAgrees_shorten {base : String} {rng : Nat → Nat} {env : ShortenEnv} {now fuel : Nat}
    {r : ShortenRequest} {w : World} {o : Outcome}
    (h : createShortURLHandler base rng env now fuel r w = some o) (hagree : CacheAgrees w) :
    CacheAgrees o.world := by
  rcases shorten_cases h with ⟨hu, hc, _⟩ | ⟨d, code, _, _, _, habs, hu, hc, _⟩
  · unfold CacheAgrees
    rw [hu, hc]
    exact hagree
  · unfold CacheAgrees
    rw [hu, hc]
    exact cacheAgrees_redisSet
      (fun e he => storeLookup_append_of_some _ (hagree e he))
      (storeLookup_append_new _ _ habs)

theorem cacheAgrees_redirect (env : ResolveEnv) (now : Nat) (code : String) {w : World}
    (hagree : CacheAgrees w) : CacheAgrees (redirectHandler env now code w).world := by
  unfold CacheAgrees
  rw [redirect_urls]
  rcases redirect_cache env now code w with hc | ⟨url, hrow, hc⟩
  · rw [hc]; exact hagree
  · rw [hc]; exact cacheAgrees_redisSet hagree hrow

theorem cacheAgrees_hitTask (fail : Bool) (code : String) {w : World}
    (hagree : CacheAgrees w) : CacheAgrees (hitTask fail code w).1 := by
  unfold hitTask
  cases fail with
  | true => exact hagree
  | false =>
    intro e he
    simp only [Bool.false_eq_true, if_false] at he ⊢
    rw [storeLookup_bumpHits]
    exact hagree e he

theorem reachable_cacheAgrees {base : String} {rng : Nat → Nat} {w : World}
    (h : Reachable base rng w) : CacheAgrees w := by
  induction h with
  | init draws => intro e he; simp at he
  | shorten env now fuel r _ hs ih => exact cacheAgrees_shorten hs ih
  | resolve env now code _ ih => exact cacheAgrees_redirect env now code ih
  | hit fail code _ ih => exact cacheAgrees_hitTask fail code ih
  | expire now _ ih =>
    intro e he
    exact ih e (List.mem_of_mem_filter he)

/-! ## Further lemmas used by the contract theorems -/

theorem findEntry_some {cache : List CacheEntry} {key : String} {e : CacheEntry}
    (h : findEntry cache key = some e) : e ∈ cache ∧ e.key = key := by
  unfold findEntry at h
  exact ⟨List.mem_of_find?_eq_some h, by simpa using List.find?_some h⟩

/-- The entry under the code, if any, carries `url` or has expired at `now`. -/
theorem settled_redirect {env : ResolveEnv} {t now : Nat} {code url : String} {w : World}
    (hrow : storeLookup w.urls code = some url)
    (hset : ∀ e, findEntry w.cache code = some e → e.value = url ∨ e.expiresAt ≤ now) :
    ∀ e, findEntry (redirectHandler env t code w).world.cache code = some e →
      e.value = url ∨ e.expiresAt ≤ now := by
  intro e he
  rcases redirect_cache env t code w with hc | ⟨u, hu, hc⟩
  · rw [hc] at he; exact hset e he
  · rw [hc] at he
    have huu : u = url := by
      rw [hrow] at hu
      exact (Option.some.inj hu).symm
    subst huu
    cases hf : env.cacheSetFail with
    | true =>
      rw [hf] at he
      simp only [redisSet, if_true] at he
      exact hset e he
    | false =>
      rw [hf, findEntry_redisSet] at he
      exact Or.inl (by rw [← Option.some.inj he])

theorem resolveSeq_settled (calls : List (ResolveEnv × Nat)) (code url : String) (now : Nat) :
    ∀ (w : World), storeLookup w.urls code = some url →
      (∀ c ∈ calls, c.1.selectFail = false ∧ now ≤ c.2) →
      (∀ e, findEntry w.cache code = some e → e.value = url ∨ e.expiresAt ≤ now) →
      ∀ resp ∈ resolveSeq calls code w, resp = .redirect 307 url := by
  induction calls with
  | nil => intro w _ _ _ resp hr; simp [resolveSeq] at hr
  | cons c rest ih =>
    intro w hrow hcalls hset resp hr
    obtain ⟨env, t⟩ := c
    have hc := hcalls (env, t) (List.mem_cons_self _ _)
    simp only [resolveSeq, List.mem_cons] at hr
    rcases hr with hr | hr
    · rw [hr]
      apply redirect_of_liveAgree hc.1 hrow
      intro e he hlt
      rcases hset e he with h | h
      · exact h
      · have := hc.2
        omega
    · refine ih (redirectHandler env t code w).world ?_ ?_ ?_ resp hr
      · rw [redirect_urls]; exact hrow
      · intro c hcm
        exact hcalls c (List.mem_cons_of_mem _ hcm)
      · exact settled_redirect hrow hset

theorem resolveSeq_failing (calls : List (ResolveEnv × Nat)) (code url : String) :
    ∀ (w : World), storeLookup w.urls code = some url →
      (∀ c ∈ calls, c.1.selectFail = false ∧ c.1.cacheGetFail = true) →
      ∀ resp ∈ resolveSeq calls code w, resp = .redirect 307 url := by
  induction calls with
  | nil => intro w _ _ resp hr; simp [resolveSeq] at hr
  | cons c rest ih =>
    intro w hrow hcalls resp hr
    obtain ⟨env, t⟩ := c
    have hc := hcalls (env, t) (List.mem_cons_self _ _)
    simp only [resolveSeq, List.mem_cons] at hr
    obtain ⟨r, hr1, hu⟩ := storeLookup_eq_some hrow
    rcases hr with hr | hr
    · have h1 : env.selectFail = false := hc.1
      have h2 : env.cacheGetFail = true := hc.2
      rw [hr]
      unfold redirectHandler
      simp [h1, h2, redisGet_failing, queryRow_working, hr1, hu]
    · refine ih (redirectHandler env t code w).world ?_ ?_ resp hr
      · rw [redirect_urls]; exact hrow
      · intro c hcm
        exact hcalls c (List.mem_cons_of_mem _ hcm)

theorem hitTask_identity (fail : Bool) (code : String) (w : World) :
    (hitTask fail code w).1.urls.map URLRecord.identity = w.urls.map URLRecord.identity := by
  unfold hitTask
  cases fail with
  | true => rfl
  | false => exact bumpHits_identity w.urls code

theorem hitTask_codes (fail : Bool) (code : String) (w : World) :
    (hitTask fail code w).1.urls.map (fun r => r.code) = w.urls.map (fun r => r.code) := by
  unfold hitTask
  cases fail with
  | true => rfl
  | false => exact bumpHits_codes w.urls code

theorem runHits_identity (fail : Bool) (codes : List String) :
    ∀ w : World, (runHits fail codes w).urls.map URLRecord.identity
      = w.urls.map URLRecord.identity := by
  induction codes with
  | nil => intro w; rfl
  | cons c rest ih =>
    intro w
    simp only [runHits]
    rw [ih, hitTask_identity]

theorem runHits_codes (fail : Bool) (codes : List String) :
    ∀ w : World, (runHits fail codes w).urls.map (fun r => r.code)
      = w.urls.map (fun r => r.code) := by
  induction codes with
  | nil => intro w; rfl
  | cons c rest ih =>
    intro w
    simp only [runHits]
    rw [ih, hitTask_codes]

/-! ## Code format -/

/-- C9: for every random stream and every position in it, `generateCode` returns
(never panics) a string of exactly `codeLength = 6` characters, all taken from
the alphabet; the alphabet is the 26 lowercase letters followed by the 26
uppercase letters and the 10 digits, 62 pairwise distinct characters; and the
index `rand.Intn(len(charset))` is always a valid index into the alphabet. -/
theorem generateCode_format (rng : Nat → Nat) (pos : Nat) :
    (∃ code, generateCode rng pos = some code ∧ code.length = 6 ∧
      ∀ c ∈ code.data, c ∈ charset.data) ∧
    codeLength = 6 ∧
    charset.data = lowercase ++ uppercase ++ digits ∧
    (lowercase.length = 26 ∧ ∀ c ∈ lowercase, c.isLower = true) ∧
    (uppercase.length = 26 ∧ ∀ c ∈ uppercase, c.isUpper = true) ∧
    (digits.length = 10 ∧ ∀ c ∈ digits, c.isDigit = true) ∧
    charset.length = 62 ∧ charset.data.Nodup ∧
    (∀ raw, ∃ idx c, Intn raw charset.length = some idx ∧ idx < charset.length ∧
      charsetAt idx = some c) := by
  refine ⟨?_, rfl, by decide, ⟨by decide, by decide⟩, ⟨by decide, by decide⟩,
    ⟨by decide, by decide⟩, charset_length, by decide, ?_⟩
  · obtain ⟨code, h1, h2, h3⟩ := generateCode_some rng pos
    exact ⟨code, h1, h2, h3⟩
  · intro raw
    have hlt : raw % 62 < 62 := Nat.mod_lt _ (by decide)
    obtain ⟨c, hc, _⟩ := charsetAt_lt (raw % 62) hlt
    exact ⟨raw % 62, c, by simp [Intn, charset_length], by rw [charset_length]; exact hlt, hc⟩

/-! ## Input validation -/

/-- C6: in every state and for any fuel, a POST whose decoded body has an empty
`long_url` is answered 400 with the error `URL is required`; the handler calls the
code generator zero times, issues no store write and no cache write, and leaves
the world (store, cache and random source) unchanged. -/
theorem shorten_empty_rejected (base : String) (rng : Nat → Nat) (env : ShortenEnv)
    (now fuel : Nat) (shortURL code : String) (w : World) :
    ∃ o, createShortURLHandler base rng env now fuel ⟨"POST", some ⟨"", shortURL, code⟩⟩ w
        = some o ∧
      o.resp = .error 400 "URL is required" ∧ o.resp.status = 400 ∧
      generatorCalls o.effects = 0 ∧ storeWrites o.effects = [] ∧ cacheWrites o.effects = [] ∧
      o.effects = [] ∧ o.world = w :=
  ⟨⟨.error 400 "URL is required", w, []⟩, by simp [createShortURLHandler], rfl, rfl, rfl, rfl, rfl,
    rfl, rfl⟩

/-- C10, as stated, fails: a POST whose body does not decode is answered 400 with
the message `Invalid request body`, which is not `URL is required`. -/
theorem malformed_body_message :
    createShortURLHandler sampleBase sampleRng shortenOk 0 1 ⟨"POST", none⟩ emptyWorld
      = some ⟨.error 400 "Invalid request body", emptyWorld, []⟩ ∧
    Response.error 400 "Invalid request body" ≠ Response.error 400 "URL is required" := by
  constructor
  · simp [createShortURLHandler]
  · decide

/-- C10, amended: every POST to the shorten handler whose body does not decode
is answered 400 with the message `Invalid request body`, and every POST whose
body decodes with an empty `long_url` is answered 400 with the message
`URL is required`; neither changes the world. -/
theorem bad_input_response (base : String) (rng : Nat → Nat) (env : ShortenEnv)
    (now fuel : Nat) (r : ShortenRequest) (w : World) (hm : r.method = "POST") :
    (r.body = none →
      createShortURLHandler base rng env now fuel r w
        = some ⟨.error 400 "Invalid request body", w, []⟩) ∧
    (∀ d, r.body = some d → d.LongURL = "" →
      createShortURLHandler base rng env now fuel r w
        = some ⟨.error 400 "URL is required", w, []⟩) := by
  constructor
  · intro hb
    simp [createShortURLHandler, hm, hb]
  · intro d hb hl
    simp [createShortURLHandler, hm, hb, hl]

theorem bad_input_response_witness :
    createShortURLHandler sampleBase sampleRng shortenOk 0 1 ⟨"POST", none⟩ emptyWorld
        = some ⟨.error 400 "Invalid request body", emptyWorld, []⟩ ∧
    createShortURLHandler sampleBase sampleRng shortenOk 0 1
        ⟨"POST", some ⟨"", "", ""⟩⟩ emptyWorld
        = some ⟨.error 400 "URL is required", emptyWorld, []⟩ :=
  ⟨(bad_input_response sampleBase sampleRng shortenOk 0 1 ⟨"POST", none⟩ emptyWorld rfl).1 rfl,
   (bad_input_response sampleBase sampleRng shortenOk 0 1 ⟨"POST", some ⟨"", "", ""⟩⟩
      emptyWorld rfl).2 ⟨"", "", ""⟩ rfl rfl⟩

/-! ## Hit counting -/

/-- C7: a resolve answers with a 307 redirect, with not-found or with the store
error 500.  Every resolve that redirects starts exactly one hit-counter
goroutine, for the resolved code, on each of the three paths (value from the
cache, from the store after a cache miss, from the store after a cache
failure); a resolve that ends in not-found or in the store error starts none;
and the response is the same whether the started increment succeeds or fails.
The started task, when it succeeds, adds exactly one to `hits` in every row of
the resolved code and changes nothing else in the table; when it fails it only
logs and the table is unchanged; a resolve that starts no task leaves the
table unchanged. -/
theorem hit_dispatch (env : ResolveEnv) (now : Nat) (code : String) (w : World) :
    ((redirectHandler env now code w).resp = .notFound ∨
      (redirectHandler env now code w).resp = .error 500 "Error retrieving URL" ∨
      ∃ url, (redirectHandler env now code w).resp = .redirect 307 url) ∧
    (∀ s url, (redirectHandler env now code w).resp = .redirect s url →
      spawnedHits (redirectHandler env now code w).effects = [code]) ∧
    ((redirectHandler env now code w).resp = .notFound ∨
      (∃ s m, (redirectHandler env now code w).resp = .error s m) →
      spawnedHits (redirectHandler env now code w).effects = []) ∧
    (∀ v, redisGet env.cacheGetFail w.cache code now = .hit v →
      (redirectHandler env now code w).resp = .redirect 307 v ∧
      spawnedHits (redirectHandler env now code w).effects = [code]) ∧
    (∀ r, redisGet env.cacheGetFail w.cache code now = .miss →
      queryRow env.selectFail w.urls code = .row r →
      (redirectHandler env now code w).resp = .redirect 307 r.long_url ∧
      spawnedHits (redirectHandler env now code w).effects = [code]) ∧
    (∀ r, redisGet env.cacheGetFail w.cache code now = .failed →
      queryRow env.selectFail w.urls code = .row r →
      (redirectHandler env now code w).resp = .redirect 307 r.long_url ∧
      spawnedHits (redirectHandler env now code w).effects = [code]) ∧
    (∀ hitFail, (resolveAndCount env hitFail now code w).resp
      = (redirectHandler env now code w).resp) ∧
    (resolveAndCount env true now code w).resp = (resolveAndCount env false now code w).resp ∧
    (∀ s url, (redirectHandler env now code w).resp = .redirect s url →
      (resolveAndCount env false now code w).world.urls
        = w.urls.map (fun r => if r.code = code then ⟨r.code, r.long_url, r.hits + 1⟩ else r)) ∧
    ((redirectHandler env now code w).resp = .notFound ∨
      (∃ s m, (redirectHandler env now code w).resp = .error s m) →
      ∀ hitFail, (resolveAndCount env hitFail now code w).world.urls = w.urls) ∧
    (resolveAndCount env true now code w).world.urls = w.urls ∧
    (hitTask false code w).1.urls
      = w.urls.map (fun r => if r.code = code then ⟨r.code, r.long_url, r.hits + 1⟩ else r) ∧
    hitTask true code w = (w, [.log "Failed to update hit counter"]) := by
  refine ⟨?_, ?_, ?_, ?_, ?_, ?_, fun _ => rfl, rfl, ?_, ?_, ?_, ?_, rfl⟩
  rotate_left 6
  · intro s url
    unfold resolveAndCount redirectHandler
    cases redisGet env.cacheGetFail w.cache code now <;>
      cases queryRow env.selectFail w.urls code <;>
      simp [spawnedHits, runHits, hitTask, bumpHits]
  · intro h hitFail
    revert h
    unfold resolveAndCount redirectHandler
    cases redisGet env.cacheGetFail w.cache code now <;>
      cases queryRow env.selectFail w.urls code <;>
      simp [spawnedHits, runHits]
  · unfold resolveAndCount redirectHandler
    cases redisGet env.cacheGetFail w.cache code now <;>
      cases queryRow env.selectFail w.urls code <;>
      simp [spawnedHits, runHits, hitTask]
  · simp [hitTask, bumpHits]
  · unfold redirectHandler
    cases redisGet env.cacheGetFail w.cache code now <;>
      cases queryRow env.selectFail w.urls code <;> simp
  · intro s url
    unfold redirectHandler
    cases redisGet env.cacheGetFail w.cache code now <;>
      cases queryRow env.selectFail w.urls code <;> simp [spawnedHits]
  · unfold redirectHandler
    cases redisGet env.cacheGetFail w.cache code now <;>
      cases queryRow env.selectFail w.urls code <;> simp [spawnedHits]
  · intro v hv
    unfold redirectHandler
    simp [hv, spawnedHits]
  · intro r hg hq
    unfold redirectHandler
    simp [hg, hq, spawnedHits]
  · intro r hg hq
    unfold redirectHandler
    simp [hg, hq, spawnedHits]

theorem hit_dispatch_witness :
    (resolveAndCount resolveOk false 5 "aaaaaa" oneRowWorld).world.urls
      = [⟨"aaaaaa", "https://example.com/old", 4⟩] ∧
    (∀ hitFail, (resolveAndCount resolveOk hitFail 5 "zzzzzz" oneRowWorld).world.urls
      = oneRowWorld.urls) :=
  ⟨(hit_dispatch resolveOk 5 "aaaaaa" oneRowWorld).2.2.2.2.2.2.2.2.1 307
      "https://example.com/old" (by decide),
   (hit_dispatch resolveOk 5 "zzzzzz" oneRowWorld).2.2.2.2.2.2.2.2.2.1 (Or.inl (by decide))⟩

/-! ## Cache repopulation -/

/-- C5, as stated, fails: with the cache read failing and the store holding the
row, resolve reaches the store, finds the record and redirects, yet issues no
cache write and leaves the cache as it was. -/
theorem no_repopulation_after_cache_failure :
    (redirectHandler resolveCacheDown 0 "aaaaaa" oneRowWorld).resp
      = .redirect 307 "https://example.com/old" ∧
    Effect.dbSelect "aaaaaa" ∈ (redirectHandler resolveCacheDown 0 "aaaaaa" oneRowWorld).effects ∧
    cacheWrites (redirectHandler resolveCacheDown 0 "aaaaaa" oneRowWorld).effects = [] ∧
    Effect.cacheSet "aaaaaa" "https://example.com/old" cacheExpiry ∉
      (redirectHandler resolveCacheDown 0 "aaaaaa" oneRowWorld).effects ∧
    (redirectHandler resolveCacheDown 0 "aaaaaa" oneRowWorld).world.cache = oneRowWorld.cache := by
  decide

/-- C5, amended: when resolve reaches the store and finds the record after a
clean cache miss, it issues exactly one cache write, of (code, long_url) with
the 24-hour TTL, so that a successful write leaves the entry expiring 24 hours
after the call; when it reaches the store after a cache access failure it
issues no cache write and leaves the cache unchanged. -/
theorem repopulation_on_miss (env : ResolveEnv) (now : Nat) (code url : String) (w : World)
    (hrow : storeLookup w.urls code = some url) (hstore : env.selectFail = false) :
    (redisGet env.cacheGetFail w.cache code now = .miss →
      cacheWrites (redirectHandler env now code w).effects = [.cacheSet code url cacheExpiry] ∧
      (redirectHandler env now code w).world.cache
        = redisSet env.cacheSetFail w.cache code url cacheExpiry now ∧
      (env.cacheSetFail = false →
        findEntry (redirectHandler env now code w).world.cache code
          = some ⟨code, url, now + 24 * 60 * 60 * 1000000000⟩)) ∧
    (redisGet env.cacheGetFail w.cache code now = .failed →
      cacheWrites (redirectHandler env now code w).effects = [] ∧
      (redirectHandler env now code w).world.cache = w.cache) := by
  obtain ⟨r, hr, hu⟩ := storeLookup_eq_some hrow
  have hq : queryRow env.selectFail w.urls code = .row r := by
    simp [hstore, queryRow_working, hr]
  constructor
  · intro hg
    have hc : (redirectHandler env now code w).world.cache
        = redisSet env.cacheSetFail w.cache code url cacheExpiry now := by
      unfold redirectHandler
      simp [hg, hq, hu]
    refine ⟨?_, hc, ?_⟩
    · unfold redirectHandler
      simp [hg, hq, hu, cacheWrites]
    · intro hset
      rw [hc, hset, findEntry_redisSet]
      simp [cacheExpiry, Hour]
  · intro hg
    unfold redirectHandler
    simp [hg, hq, cacheWrites]

theorem repopulation_on_miss_witness :
    (cacheWrites (redirectHandler resolveOk 5 "aaaaaa" oneRowWorld).effects
        = [.cacheSet "aaaaaa" "https://example.com/old" cacheExpiry] ∧
      (redirectHandler resolveOk 5 "aaaaaa" oneRowWorld).world.cache
        = redisSet false oneRowWorld.cache "aaaaaa" "https://example.com/old" cacheExpiry 5 ∧
      (resolveOk.cacheSetFail = false →
        findEntry (redirectHandler resolveOk 5 "aaaaaa" oneRowWorld).world.cache "aaaaaa"
          = some ⟨"aaaaaa", "https://example.com/old", 5 + 24 * 60 * 60 * 1000000000⟩)) ∧
    (cacheWrites (redirectHandler resolveCacheDown 5 "aaaaaa" oneRowWorld).effects = [] ∧
      (redirectHandler resolveCacheDown 5 "aaaaaa" oneRowWorld).world.cache
        = oneRowWorld.cache) :=
  ⟨(repopulation_on_miss resolveOk 5 "aaaaaa" "https://example.com/old" oneRowWorld
      (by decide) rfl).1 (by decide),
   (repopulation_on_miss resolveCacheDown 5 "aaaaaa" "https://example.com/old" oneRowWorld
      (by decide) rfl).2 (by decide)⟩

/-! ## Shorten then resolve -/

/-- For every non-empty long URL and every state whose cache entries all carry
the value the store holds for their key, if the shorten handler finishes with the
created response carrying code `c`, then resolving `c` in the state it left, at
any instant and whatever the cache does, with the store lookup not failing,
calls `http.Redirect` with status 307 and exactly that long URL as argument. -/
theorem redirect_argument_roundtrip (base : String) (rng : Nat → Nat) (senv : ShortenEnv)
    (now fuel : Nat) (r : ShortenRequest) (w : World) (o : Outcome) (d body : URLData)
    (c : String) (renv : ResolveEnv) (now2 : Nat)
    (hbody : r.body = some d) (hne : d.LongURL ≠ "") (hagree : CacheAgrees w)
    (hs : createShortURLHandler base rng senv now fuel r w = some o)
    (hresp : o.resp = .created 201 body) (hcode : body.Code = c)
    (hstore : renv.selectFail = false) :
    (redirectHandler renv now2 c o.world).resp = .redirect 307 d.LongURL := by
  have _ := hne
  rcases shorten_cases hs with ⟨_, _, hnot⟩ | ⟨d2, code, _, hb2, _, habs, hu, hc, hr⟩
  · exact absurd hresp (hnot 201 body)
  · have hd : d2 = d := by
      rw [hbody] at hb2
      exact (Option.some.inj hb2).symm
    subst hd
    have hcc : code = c := by
      rw [hr] at hresp
      injection hresp with _ hb
      rw [← hcode, ← hb]
    subst hcc
    apply redirect_of_liveAgree hstore
    · rw [hu]; exact storeLookup_append_new _ _ habs
    · intro e he _
      rw [hc] at he
      cases hf : senv.cacheSetFail with
      | false =>
        rw [hf, findEntry_redisSet] at he
        rw [← Option.some.inj he]
      | true =>
        rw [hf] at he
        simp only [redisSet, if_true] at he
        obtain ⟨hmem, hk⟩ := findEntry_some he
        have := hagree e hmem
        rw [hk] at this
        simp [storeLookup, habs] at this

/-- What `http.Redirect` sends is the escaped argument when `url.Parse` fails or
finds a scheme or a host, and otherwise what it sends when `url.Parse` finds
neither. -/
theorem locationHeader_cases (parse : String → Option URLParts) (oldpath url : String) :
    locationHeader parse oldpath url = String.mk (hexEscapeNonASCII url.data) ∨
    locationHeader parse oldpath url
      = locationHeader (fun _ => some ⟨"", ""⟩) oldpath url := by
  unfold locationHeader
  cases parse url with
  | none => exact Or.inl rfl
  | some u =>
    by_cases hu : u.Scheme = "" ∧ u.Host = ""
    · right
      simp only [hu, and_self, if_true]
    · left
      simp only [hu, if_false]

/-- C1: the round trip fails in the code at two inputs.  The non-empty long URL
`example.com/page` is accepted with 201 and code `aaaaaa`, and resolving the code
calls `http.Redirect` with that string; as `url.Parse` finds neither scheme nor
host in it, the `Location` header of the 307 response is `/example.com/page`, a
path on the service's own host and not the long URL.  The long URL
`https://example.com/café` is accepted likewise, and whatever `url.Parse` reports
the `Location` header of the 307 response is not that long URL, its last
character being sent escaped. -/
theorem roundtrip_location_differs (parse : String → Option URLParts) :
    ((createShortURLHandler sampleBase sampleRng shortenOk 0 1
        ⟨"POST", some ⟨relativeURL, "", ""⟩⟩ emptyWorld).map (fun o => (o.resp, o.world))
        = some (.created 201 ⟨relativeURL, "https://sho.rt/aaaaaa", "aaaaaa"⟩,
            afterShorten relativeURL) ∧
      (redirectHandler resolveOk 1 "aaaaaa" (afterShorten relativeURL)).resp
        = .redirect 307 relativeURL ∧
      (parse relativeURL = some ⟨"", ""⟩ →
        responseLocation parse "aaaaaa"
            (redirectHandler resolveOk 1 "aaaaaa" (afterShorten relativeURL)).resp
          = some "/example.com/page") ∧
      "/example.com/page" ≠ relativeURL) ∧
    ((createShortURLHandler sampleBase sampleRng shortenOk 0 1
        ⟨"POST", some ⟨accentURL, "", ""⟩⟩ emptyWorld).map (fun o => (o.resp, o.world))
        = some (.created 201 ⟨accentURL, "https://sho.rt/aaaaaa", "aaaaaa"⟩,
            afterShorten accentURL) ∧
      (redirectHandler resolveOk 1 "aaaaaa" (afterShorten accentURL)).resp
        = .redirect 307 accentURL ∧
      responseLocation parse "aaaaaa"
          (redirectHandler resolveOk 1 "aaaaaa" (afterShorten accentURL)).resp
        ≠ some accentURL ∧
      ((∃ u, parse accentURL = some u ∧ (u.Scheme ≠ "" ∨ u.Host ≠ "")) →
        responseLocation parse "aaaaaa"
            (redirectHandler resolveOk 1 "aaaaaa" (afterShorten accentURL)).resp
          = some "https://example.com/caf%c3%a9")) := by
  have hrel : (redirectHandler resolveOk 1 "aaaaaa" (afterShorten relativeURL)).resp
      = .redirect 307 relativeURL := by decide
  have hacc : (redirectHandler resolveOk 1 "aaaaaa" (afterShorten accentURL)).resp
      = .redirect 307 accentURL := by decide
  refine ⟨⟨by decide, hrel, ?_, by decide⟩, ⟨by decide, hacc, ?_, ?_⟩⟩
  · intro hp
    rw [hrel]
    show some (locationHeader parse (requestPath "aaaaaa") relativeURL) = _
    have h : locationHeader parse (requestPath "aaaaaa") relativeURL
        = locationHeader (fun _ => some ⟨"", ""⟩) (requestPath "aaaaaa") relativeURL := by
      unfold locationHeader
      rw [hp]
    rw [h]
    decide
  · rw [hacc]
    show some (locationHeader parse (requestPath "aaaaaa") accentURL) ≠ _
    rcases locationHeader_cases parse (requestPath "aaaaaa") accentURL with h | h
    · rw [h]; decide
    · rw [h]; decide
  · rintro ⟨u, hu, hs⟩
    rw [hacc]
    show some (locationHeader parse (requestPath "aaaaaa") accentURL) = _
    have h : locationHeader parse (requestPath "aaaaaa") accentURL
        = String.mk (hexEscapeNonASCII accentURL.data) := by
      unfold locationHeader
      rw [hu]
      have hn : ¬ (u.Scheme = "" ∧ u.Host = "") := by
        rintro ⟨h1, h2⟩
        rcases hs with h | h
        · exact h h1
        · exact h h2
      simp only [hn, if_false]
    rw [h]
    decide

theorem roundtrip_location_differs_witness :
    responseLocation sampleParse "aaaaaa"
        (redirectHandler resolveOk 1 "aaaaaa" (afterShorten relativeURL)).resp
      = some "/example.com/page" ∧
    responseLocation sampleParse "aaaaaa"
        (redirectHandler resolveOk 1 "aaaaaa" (afterShorten accentURL)).resp
      = some "https://example.com/caf%c3%a9" :=
  ⟨(roundtrip_location_differs sampleParse).1.2.2.1 (by decide),
   (roundtrip_location_differs sampleParse).2.2.2.2 ⟨⟨"https", "example.com"⟩, by decide,
     Or.inl (by decide)⟩⟩

/-! ## Collisions -/

/-- C2: for every K, when the first K candidates the generator produces already
have a row and the next candidate has none, a POST of a non-empty long URL with
no store failure finishes as soon as the fuel exceeds K: it calls the generator
K+1 times, appends exactly the row (candidate K+1, long URL) to the table, issues
that one insert and no other, and answers 201 with that candidate as code and
with short URL `shortURLBase + "/" + code`. -/
theorem shorten_after_collisions (base : String) (rng : Nat → Nat) (env : ShortenEnv)
    (now fuel K : Nat) (d : URLData) (w : World) (cK : String)
    (hne : d.LongURL ≠ "")
    (hpres : ∀ i, i < K → ∃ c, generateCode rng (w.draws + codeLength * i) = some c ∧
      ∃ r ∈ w.urls, r.code = c)
    (hgen : generateCode rng (w.draws + codeLength * K) = some cK)
    (habs : ∀ r ∈ w.urls, r.code ≠ cK)
    (hex : ∀ i, i ≤ K → env.existsFail i = false) (hins : env.insertFail = false)
    (hfuel : K < fuel) :
    ∃ o, createShortURLHandler base rng env now fuel ⟨"POST", some d⟩ w = some o ∧
      o.resp = .created 201 ⟨d.LongURL, base ++ "/" ++ cK, cK⟩ ∧
      o.resp.status = 201 ∧
      o.world.urls = w.urls ++ [⟨cK, d.LongURL, 0⟩] ∧
      storeWrites o.effects = [.dbInsert cK d.LongURL] ∧
      generatorCalls o.effects = K + 1 := by
  obtain ⟨e, he, hgc, hsw, _⟩ := findFreeCode_collisions rng env.existsFail w.urls K fuel 0
    w.draws [] cK hfuel hpres hgen habs (fun i hi => by simpa using hex i hi)
  have hinsert := execInsert_working d.LongURL (findRow_eq_none.mpr habs)
  refine ⟨⟨.created 201 ⟨d.LongURL, base ++ "/" ++ cK, cK⟩,
    ⟨w.urls ++ [⟨cK, d.LongURL, 0⟩],
      redisSet env.cacheSetFail w.cache cK d.LongURL cacheExpiry now,
      w.draws + codeLength * (K + 1)⟩,
    e ++ [.dbInsert cK d.LongURL, .cacheSet cK d.LongURL cacheExpiry]
      ++ (if env.cacheSetFail then [.log "Cache error"] else [])⟩, ?_, rfl, rfl, rfl, ?_, ?_⟩
  · unfold createShortURLHandler
    simp only [ne_eq, not_true_eq_false, if_false, hne, he, hins, hinsert]
  · cases env.cacheSetFail <;>
      simp [storeWrites_append, storeWrites, hsw]
  · cases env.cacheSetFail <;>
      simp [generatorCalls_append, generatorCalls, hgc]

theorem shorten_after_collisions_witness :
    ∃ o, createShortURLHandler sampleBase sampleRng shortenOk 1 2
        ⟨"POST", some ⟨sampleURL, "", ""⟩⟩ oneRowWorld = some o ∧
      o.resp = .created 201 ⟨sampleURL, sampleBase ++ "/" ++ "bbbbbb", "bbbbbb"⟩ ∧
      o.resp.status = 201 ∧
      o.world.urls = oneRowWorld.urls ++ [⟨"bbbbbb", sampleURL, 0⟩] ∧
      storeWrites o.effects = [.dbInsert "bbbbbb" sampleURL] ∧
      generatorCalls o.effects = 1 + 1 :=
  shorten_after_collisions sampleBase sampleRng shortenOk 1 2 1 ⟨sampleURL, "", ""⟩ oneRowWorld
    "bbbbbb" (by decide)
    (fun i hi => by
      obtain rfl : i = 0 := by omega
      exact ⟨"aaaaaa", by decide, ⟨"aaaaaa", "https://example.com/old", 3⟩, by decide, rfl⟩)
    (by decide) (by decide) (fun _ _ => rfl) rfl (by decide)

/-! ## Resolve and the cache -/

/-- C3: for every code whose long URL in the store is `url`, with a working
store, resolve answers with the 307 redirect to `url` whether the cache holds no
entry for the code, holds a live entry carrying `url`, holds an expired entry,
or fails.  Moreover every call of any sequence of later resolve calls of that
code gives the same redirect, whatever each call finds in the cache, when the
entry was absent, agreeing or expired at the start, and also when the cache
read fails in every call. -/
theorem resolve_cache_independent (env : ResolveEnv) (now : Nat) (code url : String) (w : World)
    (hrow : storeLookup w.urls code = some url) (hstore : env.selectFail = false)
    (hcond : CacheAbsent w.cache code ∨ CacheWarm w.cache code url now ∨
      CacheExpired w.cache code now ∨ env.cacheGetFail = true) :
    (redirectHandler env now code w).resp = .redirect 307 url ∧
    (∀ calls : List (ResolveEnv × Nat),
      (∀ c ∈ calls, c.1.selectFail = false ∧ now ≤ c.2) →
      (CacheAbsent w.cache code ∨ CacheWarm w.cache code url now ∨
        CacheExpired w.cache code now) →
      ∀ resp ∈ resolveSeq calls code w, resp = .redirect 307 url) ∧
    (∀ calls : List (ResolveEnv × Nat),
      (∀ c ∈ calls, c.1.selectFail = false ∧ c.1.cacheGetFail = true) →
      ∀ resp ∈ resolveSeq calls code w, resp = .redirect 307 url) := by
  have hsettled : (CacheAbsent w.cache code ∨ CacheWarm w.cache code url now ∨
      CacheExpired w.cache code now) →
      ∀ e, findEntry w.cache code = some e → e.value = url ∨ e.expiresAt ≤ now := by
    intro h e he
    rcases h with h | ⟨e2, he2, hv, _⟩ | ⟨e2, he2, hx⟩
    · unfold CacheAbsent at h
      rw [h] at he
      exact absurd he (by simp)
    · rw [he2] at he
      exact Or.inl (by rw [← Option.some.inj he]; exact hv)
    · rw [he2] at he
      exact Or.inr (by rw [← Option.some.inj he]; exact hx)
  refine ⟨?_, ?_, ?_⟩
  · rcases hcond with h | h | h | h
    · exact redirect_of_liveAgree hstore hrow (fun e he hlt => by
        rcases hsettled (Or.inl h) e he with h1 | h1
        · exact h1
        · omega)
    · exact redirect_of_liveAgree hstore hrow (fun e he hlt => by
        rcases hsettled (Or.inr (Or.inl h)) e he with h1 | h1
        · exact h1
        · omega)
    · exact redirect_of_liveAgree hstore hrow (fun e he hlt => by
        rcases hsettled (Or.inr (Or.inr h)) e he with h1 | h1
        · exact h1
        · omega)
    · obtain ⟨r, hr, hu⟩ := storeLookup_eq_some hrow
      unfold redirectHandler
      simp [h, hstore, redisGet_failing, queryRow_working, hr, hu]
  · intro calls hcalls hc
    exact resolveSeq_settled calls code url now w hrow hcalls (hsettled hc)
  · intro calls hcalls
    exact resolveSeq_failing calls code url w hrow hcalls

theorem resolve_cache_independent_witness :
    (redirectHandler resolveOk 10 "aaaaaa"
      ⟨[⟨"aaaaaa", "https://example.com/old", 3⟩], [⟨"aaaaaa", "https://stale.example", 4⟩], 0⟩).resp
      = .redirect 307 "https://example.com/old" ∧
    (∀ resp ∈ resolveSeq [(resolveOk, 10), (resolveCacheDown, 11), (resolveOk, 10 + cacheExpiry)]
        "aaaaaa"
        ⟨[⟨"aaaaaa", "https://example.com/old", 3⟩], [⟨"aaaaaa", "https://stale.example", 4⟩], 0⟩,
      resp = .redirect 307 "https://example.com/old") ∧
    (∀ resp ∈ resolveSeq [(resolveCacheDown, 10), (resolveCacheDown, 2)] "aaaaaa"
        ⟨[⟨"aaaaaa", "https://example.com/old", 3⟩], [⟨"aaaaaa", "https://stale.example", 4⟩], 0⟩,
      resp = .redirect 307 "https://example.com/old") :=
  have h := resolve_cache_independent resolveOk 10 "aaaaaa" "https://example.com/old"
    ⟨[⟨"aaaaaa", "https://example.com/old", 3⟩], [⟨"aaaaaa", "https://stale.example", 4⟩], 0⟩
    (by decide) rfl
    (Or.inr (Or.inr (Or.inl (by decide))))
  ⟨h.1,
   h.2.1 [(resolveOk, 10), (resolveCacheDown, 11), (resolveOk, 10 + cacheExpiry)]
     (by decide)
     (Or.inr (Or.inr (by decide))),
   h.2.2 [(resolveCacheDown, 10), (resolveCacheDown, 2)] (by decide)⟩

/-! ## Unknown codes -/

/-- C4: in every state reached from the empty store and cache by shorten calls,
resolve calls, hit-counter updates and cache expiry, resolving a code that has
no row is answered with `http.NotFound` (status 404) when the store lookup works,
whatever the cache does, and with the error 500 when the store lookup itself
fails; the two outcomes are different responses with different status codes. -/
theorem unknown_code_not_found (base : String) (rng : Nat → Nat) (w : World) (env : ResolveEnv)
    (now : Nat) (code : String)
    (hreach : Reachable base rng w) (hno : ∀ r ∈ w.urls, r.code ≠ code) :
    (env.selectFail = false →
      (redirectHandler env now code w).resp = .notFound ∧
      (redirectHandler env now code w).resp.status = 404) ∧
    (env.selectFail = true →
      (redirectHandler env now code w).resp = .error 500 "Error retrieving URL" ∧
      (redirectHandler env now code w).resp.status = 500) ∧
    Response.notFound ≠ Response.error 500 "Error retrieving URL" ∧
    Response.notFound.status ≠ (Response.error 500 "Error retrieving URL").status := by
  have h := redirect_unknown env now (reachable_cacheAgrees hreach) hno
  refine ⟨?_, ?_, by decide, by decide⟩
  · intro hs
    rw [h, hs]
    exact ⟨rfl, rfl⟩
  · intro hs
    rw [h, hs]
    exact ⟨rfl, rfl⟩

theorem unknown_code_not_found_witness :
    ((redirectHandler resolveOk 9 "doesnotexist"
        ⟨[⟨"aaaaaa", sampleURL, 0⟩], [⟨"aaaaaa", sampleURL, 1 + cacheExpiry⟩], 6⟩).resp
        = .notFound ∧
      (redirectHandler resolveOk 9 "doesnotexist"
        ⟨[⟨"aaaaaa", sampleURL, 0⟩], [⟨"aaaaaa", sampleURL, 1 + cacheExpiry⟩], 6⟩).resp.status
        = 404) ∧
    ((redirectHandler ⟨true, true, true⟩ 9 "doesnotexist"
        ⟨[⟨"aaaaaa", sampleURL, 0⟩], [⟨"aaaaaa", sampleURL, 1 + cacheExpiry⟩], 6⟩).resp
        = .error 500 "Error retrieving URL" ∧
      (redirectHandler ⟨true, true, true⟩ 9 "doesnotexist"
        ⟨[⟨"aaaaaa", sampleURL, 0⟩], [⟨"aaaaaa", sampleURL, 1 + cacheExpiry⟩], 6⟩).resp.status
        = 500) :=
  have hreach : Reachable sampleBase sampleRng
      ⟨[⟨"aaaaaa", sampleURL, 0⟩], [⟨"aaaaaa", sampleURL, 1 + cacheExpiry⟩], 6⟩ :=
    @Reachable.shorten sampleBase sampleRng emptyWorld
      ⟨.created 201 ⟨sampleURL, "https://sho.rt/aaaaaa", "aaaaaa"⟩,
        ⟨[⟨"aaaaaa", sampleURL, 0⟩], [⟨"aaaaaa", sampleURL, 1 + cacheExpiry⟩], 6⟩,
        [.generate, .dbExists "aaaaaa", .dbInsert "aaaaaa" sampleURL,
         .cacheSet "aaaaaa" sampleURL cacheExpiry]⟩
      shortenOk 1 1 ⟨"POST", some ⟨sampleURL, "", ""⟩⟩ (Reachable.init 0) (by decide)
  ⟨(unknown_code_not_found sampleBase sampleRng _ resolveOk 9 "doesnotexist" hreach
      (by decide)).1 rfl,
   (unknown_code_not_found sampleBase sampleRng _ ⟨true, true, true⟩ 9 "doesnotexist" hreach
      (by decide)).2.1 rfl⟩

/-! ## Uniqueness of codes -/

/-- C8: every operation keeps the codes of the rows pairwise distinct.  A
finished shorten call leaves the table as it was or appends exactly one row,
whose code had no row before, after the rows already there, which are
unchanged; a resolve call leaves the table unchanged; and the hit-counter
update it starts changes no row's code or long URL. -/
theorem unique_codes_invariant (base : String) (rng : Nat → Nat) (senv : ShortenEnv)
    (renv : ResolveEnv) (now fuel : Nat) (r : ShortenRequest) (code : String) (hitFail : Bool)
    (w : World) :
    (∀ o, createShortURLHandler base rng senv now fuel r w = some o →
      (UniqueCodes w.urls → UniqueCodes o.world.urls) ∧
      (o.world.urls = w.urls ∨
        ∃ rec, o.world.urls = w.urls ++ [rec] ∧ ∀ x ∈ w.urls, x.code ≠ rec.code)) ∧
    ((redirectHandler renv now code w).world.urls = w.urls ∧
      (UniqueCodes w.urls → UniqueCodes (redirectHandler renv now code w).world.urls)) ∧
    ((hitTask hitFail code w).1.urls.map URLRecord.identity = w.urls.map URLRecord.identity ∧
      (UniqueCodes w.urls → UniqueCodes (hitTask hitFail code w).1.urls)) ∧
    ((resolveAndCount renv hitFail now code w).world.urls.map URLRecord.identity
        = w.urls.map URLRecord.identity ∧
      (UniqueCodes w.urls → UniqueCodes (resolveAndCount renv hitFail now code w).world.urls)) := by
  refine ⟨?_, ⟨redirect_urls renv now code w, ?_⟩, ⟨hitTask_identity hitFail code w, ?_⟩, ?_, ?_⟩
  · intro o ho
    rcases shorten_cases ho with ⟨hu, _, _⟩ | ⟨d, c, _, _, _, habs, hu, _, _⟩
    · exact ⟨fun h => by rw [hu]; exact h, Or.inl hu⟩
    · refine ⟨fun h => by rw [hu]; exact uniqueCodes_append _ _ h habs, Or.inr ⟨_, hu, ?_⟩⟩
      exact findRow_eq_none.mp habs
  · intro h
    rw [redirect_urls]
    exact h
  · intro h
    unfold UniqueCodes at *
    rw [hitTask_codes]
    exact h
  · show (runHits hitFail _ (redirectHandler renv now code w).world).urls.map URLRecord.identity = _
    rw [runHits_identity, redirect_urls]
  · intro h
    show UniqueCodes (runHits hitFail _ (redirectHandler renv now code w).world).urls
    unfold UniqueCodes at *
    rw [runHits_codes, redirect_urls]
    exact h

theorem unique_codes_invariant_witness :
    UniqueCodes [⟨"aaaaaa", "https://example.com/old", 3⟩, ⟨"bbbbbb", sampleURL, 0⟩] ∧
    UniqueCodes (resolveAndCount resolveOk false 3 "aaaaaa" oneRowWorld).world.urls :=
  have h := unique_codes_invariant sampleBase sampleRng shortenOk resolveOk 1 2
    ⟨"POST", some ⟨sampleURL, "", ""⟩⟩ "aaaaaa" false oneRowWorld
  have hu : UniqueCodes oneRowWorld.urls := by decide
  ⟨(h.1 ⟨.created 201 ⟨sampleURL, "https://sho.rt/bbbbbb", "bbbbbb"⟩,
      ⟨[⟨"aaaaaa", "https://example.com/old", 3⟩, ⟨"bbbbbb", sampleURL, 0⟩],
       [⟨"bbbbbb", sampleURL, 1 + cacheExpiry⟩], 12⟩,
      [.generate, .dbExists "aaaaaa", .generate, .dbExists "bbbbbb",
       .dbInsert "bbbbbb" sampleURL, .cacheSet "bbbbbb" sampleURL cacheExpiry]⟩ (by decide)).1 hu,
   h.2.2.2.2 hu⟩

end UrlShortener
